import Mathlib

/-!
Verification of the ilda-tools core (ILDA frame decoder and WAV sample
scheduler) against its specification.

The C++ sources are embedded shallowly:
* C `int` arithmetic is modelled by `Int` with truncated division
  (`Int.tdiv` / `Int.tmod`), which is exactly C's `/` and `%`.
* `int16_t` values are `Int`s in `[-2^15, 2^15)`; assignment of a wider
  value to an `int16_t` is modelled by `wrap16` (two's-complement wrap).
* Byte streams are `List Nat` with every element `< 256`.
-/

/-- Two's-complement wrap of an integer to the signed 16-bit range,
modelling assignment to a C `int16_t`. -/
def wrap16 (n : Int) : Int := (n + 2 ^ 15) % 2 ^ 16 - 2 ^ 15

/-- `groupSizeOfNthGroup` from `ilda_wav.cpp`: fair remainder
distribution of `total_size` over `groups` groups; the size of group
`index`. -/
def groupSizeOfNthGroup (total_size groups index : Int) : Int :=
  let base := total_size.tdiv groups
  let rest := total_size.tmod groups
  if (index * rest).tmod groups > ((index + 1) * rest).tmod groups then base + 1 else base

/- ### ILDA frame decoder (`ilda_istream.cpp`, `ilda.hpp`, `frame.hpp`) -/

/-- `ILDAColor` from `ilda.hpp`: a raw RGB triple (bytes). -/
structure ILDAColor where
  r : Nat
  g : Nat
  b : Nat
deriving Repr, DecidableEq

/-- `Point` from `frame.hpp`: signed 16-bit coordinates plus resolved
color channels. -/
structure Point where
  x : Int
  y : Int
  z : Int
  r : Nat
  g : Nat
  b : Nat
deriving Repr, DecidableEq

/-- `Frame` from `frame.hpp`. -/
structure Frame where
  projector : Nat
  points : List Point
deriving Repr, DecidableEq

/-- The 64-entry `default_palette` from `ilda_istream.cpp`. -/
def default_palette : List ILDAColor :=
  [⟨255, 0, 0⟩, ⟨255, 16, 0⟩, ⟨255, 32, 0⟩, ⟨255, 48, 0⟩,
   ⟨255, 64, 0⟩, ⟨255, 80, 0⟩, ⟨255, 96, 0⟩, ⟨255, 112, 0⟩,
   ⟨255, 128, 0⟩, ⟨255, 144, 0⟩, ⟨255, 160, 0⟩, ⟨255, 176, 0⟩,
   ⟨255, 192, 0⟩, ⟨255, 208, 0⟩, ⟨255, 224, 0⟩, ⟨255, 240, 0⟩,
   ⟨255, 255, 0⟩, ⟨224, 255, 0⟩, ⟨192, 255, 0⟩, ⟨160, 255, 0⟩,
   ⟨128, 255, 0⟩, ⟨96, 255, 0⟩, ⟨64, 255, 0⟩, ⟨32, 255, 0⟩,
   ⟨0, 255, 0⟩, ⟨0, 255, 36⟩, ⟨0, 255, 73⟩, ⟨0, 255, 109⟩,
   ⟨0, 255, 146⟩, ⟨0, 255, 182⟩, ⟨0, 255, 219⟩, ⟨0, 255, 255⟩,
   ⟨0, 227, 255⟩, ⟨0, 198, 255⟩, ⟨0, 170, 255⟩, ⟨0, 142, 255⟩,
   ⟨0, 113, 255⟩, ⟨0, 85, 255⟩, ⟨0, 56, 255⟩, ⟨0, 28, 255⟩,
   ⟨0, 0, 255⟩, ⟨32, 0, 255⟩, ⟨64, 0, 255⟩, ⟨96, 0, 255⟩,
   ⟨128, 0, 255⟩, ⟨160, 0, 255⟩, ⟨192, 0, 255⟩, ⟨224, 0, 255⟩,
   ⟨255, 0, 255⟩, ⟨255, 32, 255⟩, ⟨255, 64, 255⟩, ⟨255, 96, 255⟩,
   ⟨255, 128, 255⟩, ⟨255, 160, 255⟩, ⟨255, 192, 255⟩, ⟨255, 224, 255⟩,
   ⟨255, 255, 255⟩, ⟨255, 224, 224⟩, ⟨255, 192, 192⟩, ⟨255, 160, 160⟩,
   ⟨255, 128, 128⟩, ⟨255, 96, 96⟩, ⟨255, 64, 64⟩, ⟨255, 32, 32⟩]

/-- Errors thrown by the decoder (`runtime_error` messages in
`ilda_istream.cpp`). -/
inductive ILDAError where
  | corruptFormat
  | unexpectedEof
  | notSupported
deriving Repr, DecidableEq

/-- Decoder state: the remaining input bytes, the per-source palette map
and the `current_frame` buffer whose address `nextFrame` returns. -/
structure ILDAIStream where
  input : List Nat
  palettes : Nat → Option (List ILDAColor)
  current_frame : Frame

/-- `ILDAIStream::read`: consume `n` bytes or fail (short read). -/
def takeBytes (n : Nat) (input : List Nat) : Option (List Nat × List Nat) :=
  if input.length < n then none else some (input.take n, input.drop n)

/-- `ILDAIStream::read` with its throw: a short read raises
`UnexpectedEof`. -/
def readOrEof (n : Nat) (input : List Nat) :
    Except ILDAError (List Nat × List Nat) :=
  match takeBytes n input with
  | none => .error .unexpectedEof
  | some p => .ok p

/-- The byte values of the literal `"ILDA"`. -/
def ildaMagic : List Nat := [73, 76, 68, 65]

/-- The magic comparison in `readHeader`: the C++ constructs
`string(header.ilda)` from a 4-byte array that carries no NUL terminator
of its own, so the scan runs on into the bytes that follow inside the
packed header. Its comparison with `"ILDA"` is nevertheless fully
determined by the header's own 32 bytes: it succeeds iff the header
starts with `'I','L','D','A'` followed by a zero byte. -/
def magicStringOf (hdr : List Nat) : List Nat := hdr.takeWhile (fun b => b != 0)

/-- The header fields the decoder actually uses (offsets per the packed
`ilda_header` layout: format at byte 7, record count big-endian at bytes
24-25, projector id at byte 30). -/
structure ParsedHeader where
  format : Nat
  number_of_records : Nat
  projector_id : Nat
deriving Repr, DecidableEq

def be16 (hi lo : Nat) : Nat := hi * 256 + lo

def parseHeader (hdr : List Nat) : ParsedHeader :=
  { format := hdr.getD 7 0
    number_of_records := be16 (hdr.getD 24 0) (hdr.getD 25 0)
    projector_id := hdr.getD 30 0 }

/-- `ILDAIStream::readHeader`: read 32 bytes, check the magic tag,
convert the record count from big-endian. -/
def ILDAIStream.readHeader (st : ILDAIStream) :
    Except ILDAError (ParsedHeader × ILDAIStream) := do
  let (hdr, rest) ← readOrEof 32 st.input
  if magicStringOf hdr = ildaMagic then
    .ok (parseHeader hdr, { st with input := rest })
  else
    .error .corruptFormat

/-- A 16-bit field as read raw from the stream into an `int16_t` on a
little-endian host (the code performs no byte-order conversion on
coordinate fields): first stream byte is the low-order byte. -/
def int16FromBytes (b0 b1 : Nat) : Int :=
  let v := b1 * 256 + b0
  if v < 2 ^ 15 then (v : Int) else (v : Int) - 2 ^ 16

/-- Bit 6 of the status byte (`ilda_status.blanked`). -/
def statusBlanked (s : Nat) : Bool := s / 64 % 2 = 1

/-- One loop body of `frameFrom3dCoordinatesIndexed`: build a `Point`
from an 8-byte `ILDA3dCoordinatesIndexed` record, resolving the color
index against `palette` (out-of-range index or blanked status forces
black). -/
def point3dIndexedOf (palette : List ILDAColor) (rec : List Nat) : Point :=
  let x := int16FromBytes (rec.getD 0 0) (rec.getD 1 0)
  let y := int16FromBytes (rec.getD 2 0) (rec.getD 3 0)
  let z := int16FromBytes (rec.getD 4 0) (rec.getD 5 0)
  let status := rec.getD 6 0
  let color := rec.getD 7 0
  if palette.length ≤ color ∨ statusBlanked status then
    { x := x, y := y, z := z, r := 0, g := 0, b := 0 }
  else
    let c := palette.getD color ⟨0, 0, 0⟩
    { x := x, y := y, z := z, r := c.r, g := c.g, b := c.b }

/-- The record loop of `ILDAIStream::frameFrom3dCoordinatesIndexed`:
read `n` 8-byte records (a short read throws `UnexpectedEof`). -/
def readRecords3dIndexed (palette : List ILDAColor) :
    Nat → List Nat → Except ILDAError (List Point × List Nat)
  | 0, input => .ok ([], input)
  | n + 1, input => do
      let (rec, rest) ← readOrEof 8 input
      let (ps, rest') ← readRecords3dIndexed palette n rest
      .ok (point3dIndexedOf palette rec :: ps, rest')

/-- One loop body of `frameFrom3dCoordinatesTrue` (10-byte record:
x, y, z, status, then blue, green, red). -/
def point3dTrueOf (rec : List Nat) : Point :=
  let x := int16FromBytes (rec.getD 0 0) (rec.getD 1 0)
  let y := int16FromBytes (rec.getD 2 0) (rec.getD 3 0)
  let z := int16FromBytes (rec.getD 4 0) (rec.getD 5 0)
  let status := rec.getD 6 0
  if statusBlanked status then
    { x := x, y := y, z := z, r := 0, g := 0, b := 0 }
  else
    { x := x, y := y, z := z, r := rec.getD 9 0, g := rec.getD 8 0, b := rec.getD 7 0 }

def readRecords3dTrue : Nat → List Nat → Except ILDAError (List Point × List Nat)
  | 0, input => .ok ([], input)
  | n + 1, input => do
      let (rec, rest) ← readOrEof 10 input
      let (ps, rest') ← readRecords3dTrue n rest
      .ok (point3dTrueOf rec :: ps, rest')

/-- One loop body of `frameFrom2dCoordinatesTrue` (8-byte record:
x, y, status, blue, green, red; z forced to 0). -/
def point2dTrueOf (rec : List Nat) : Point :=
  let x := int16FromBytes (rec.getD 0 0) (rec.getD 1 0)
  let y := int16FromBytes (rec.getD 2 0) (rec.getD 3 0)
  let status := rec.getD 4 0
  if statusBlanked status then
    { x := x, y := y, z := 0, r := 0, g := 0, b := 0 }
  else
    { x := x, y := y, z := 0, r := rec.getD 7 0, g := rec.getD 6 0, b := rec.getD 5 0 }

def readRecords2dTrue : Nat → List Nat → Except ILDAError (List Point × List Nat)
  | 0, input => .ok ([], input)
  | n + 1, input => do
      let (rec, rest) ← readOrEof 8 input
      let (ps, rest') ← readRecords2dTrue n rest
      .ok (point2dTrueOf rec :: ps, rest')

/-- The record loop of `ILDAIStream::setColorPalette`: read `n` 3-byte
RGB records. -/
def readPaletteRecords : Nat → List Nat → Except ILDAError (List ILDAColor × List Nat)
  | 0, input => .ok ([], input)
  | n + 1, input => do
      let (rec, rest) ← readOrEof 3 input
      let (cs, rest') ← readPaletteRecords n rest
      .ok ((⟨rec.getD 0 0, rec.getD 1 0, rec.getD 2 0⟩ : ILDAColor) :: cs, rest')

/-- The palette used by the indexed decoders: the palette registered for
the header's projector id, else the default palette. -/
def ILDAIStream.paletteFor (st : ILDAIStream) (pid : Nat) : List ILDAColor :=
  (st.palettes pid).getD default_palette

/-- `ILDAIStream::nextFrame`. Faithful to the source, including:
a zero record count returns no frame (end of stream); format code 1
(2D indexed) dispatches to `frameFrom3dCoordinatesIndexed`, i.e. reads
8-byte 3D records (the dedicated 2D routine in the source is never
called); a palette-load block (format 2) replaces the palette for the
header's projector id and still returns the untouched `current_frame`
buffer. -/
def ILDAIStream.nextFrame (st : ILDAIStream) :
    Except ILDAError (Option Frame × ILDAIStream) := do
  let (hdr, st1) ← st.readHeader
  if hdr.number_of_records = 0 then .ok (none, st1)
  else if hdr.format = 0 ∨ hdr.format = 1 then do
    let (ps, rest) ← readRecords3dIndexed (st1.paletteFor hdr.projector_id)
      hdr.number_of_records st1.input
    let fr : Frame := { projector := hdr.projector_id, points := ps }
    .ok (some fr, { st1 with input := rest, current_frame := fr })
  else if hdr.format = 2 then do
    let (cs, rest) ← readPaletteRecords hdr.number_of_records st1.input
    .ok (some st1.current_frame,
      { st1 with
        input := rest
        palettes := fun id =>
          if id = hdr.projector_id then some cs else st1.palettes id })
  else if hdr.format = 4 then do
    let (ps, rest) ← readRecords3dTrue hdr.number_of_records st1.input
    let fr : Frame := { projector := hdr.projector_id, points := ps }
    .ok (some fr, { st1 with input := rest, current_frame := fr })
  else if hdr.format = 5 then do
    let (ps, rest) ← readRecords2dTrue hdr.number_of_records st1.input
    let fr : Frame := { projector := hdr.projector_id, points := ps }
    .ok (some fr, { st1 with input := rest, current_frame := fr })
  else
    .error .notSupported

/-- A fresh decoder on the given byte stream (`ILDAIStream`
constructor: empty palette map, default-constructed `current_frame`,
whose point list is empty). -/
def initialStream (input : List Nat) : ILDAIStream :=
  { input := input
    palettes := fun _ => none
    current_frame := { projector := 0, points := [] } }

/-- The frame part of a `nextFrame` result (`none` when the call failed
or signalled end of stream). -/
def frameOf (r : Except ILDAError (Option Frame × ILDAIStream)) : Option Frame :=
  match r with
  | .ok (f, _) => f
  | .error _ => none

/-- Whether a `nextFrame` call yielded a frame. -/
def yieldsFrame (r : Except ILDAError (Option Frame × ILDAIStream)) : Bool :=
  match r with
  | .ok (some _, _) => true
  | _ => false

/-- The frames of the first two `nextFrame` calls on a fresh decoder. -/
def decodeFirstTwo (input : List Nat) : Option Frame × Option Frame :=
  match (initialStream input).nextFrame with
  | .error _ => (none, none)
  | .ok (f1, st1) =>
      match st1.nextFrame with
      | .error _ => (f1, none)
      | .ok (f2, _) => (f1, f2)

/-- Header bytes for a block: magic, 3 reserved bytes, format, 8-byte
name, 8-byte company, big-endian record count, frame number, total
frames, projector id, reserved. -/
def mkHeader (format nrec pid : Nat) : List Nat :=
  ildaMagic ++ [0, 0, 0, format] ++ List.replicate 16 0 ++
    [nrec / 256, nrec % 256] ++ [0, 0, 0, 0] ++ [pid, 0]

/-- The byte encoding of a list of palette records. -/
def colorBytes (L : List ILDAColor) : List Nat :=
  L.flatMap (fun c => [c.r, c.g, c.b])

/-- The palette map held by the decoder state reached after one
`nextFrame` call on a fresh decoder, queried at `pid`. -/
def paletteAfterFirst (input : List Nat) (pid : Nat) : Option (List ILDAColor) :=
  match (initialStream input).nextFrame with
  | .ok (_, st') => st'.palettes pid
  | .error _ => none

/-- Whether `readHeader` rejects the input with the corrupt-file error. -/
def headerCorrupt (input : List Nat) : Bool :=
  match (initialStream input).readHeader with
  | .error .corruptFormat => true
  | _ => false

/- ### WAV sample scheduler (`ilda_wav.cpp`) -/

/-- The constructor arguments of `ILDAWavOutput`. -/
structure WavParams where
  fps : Int
  signals : List Char
  invert : List Char
  rate : Int
  pps : Int

/-- `numeric_limits<int16_t>::max()`. -/
def int16Max : Int := 32767

/-- `numeric_limits<uint8_t>::max()`. -/
def uint8Max : Int := 255

/-- The color scale factor `numeric_limits<int16_t>::max() /
numeric_limits<uint8_t>::max()`: an integer division evaluated before
the multiplication by the channel value. -/
def colorChannelScale : Int := int16Max.tdiv uint8Max

/-- The `switch (s)` over the requested signal characters; `none`
models the `InvalidSignal` throw. -/
def sampleFor (s : Char) (ix iy iz l r g b : Int) : Option Int :=
  if s = 'x' then some ix
  else if s = 'y' then some iy
  else if s = 'z' then some iz
  else if s = 'l' then some l
  else if s = 'r' then some r
  else if s = 'g' then some g
  else if s = 'b' then some b
  else none

/-- One interpolated coordinate:
`int16_t ix = last + ((int)d * p / point_count_of_location)`
(truncated C division, then assignment to `int16_t`). -/
def interpCoord (lastv dv p k : Int) : Int := wrap16 (lastv + (dv * p).tdiv k)

/-- The mutable locals of `run` that persist across locations and
frames. -/
structure EmitState where
  last_x : Int
  last_y : Int
  last_z : Int
  point_number : Int

/-- The `for (int p = 1; p <= point_count_of_location; p++)` loop for
one location: `pList` enumerates the 0-based loop steps, `pn` is
`point_number`. For each sub-step the channel values are computed and
written `samples_of_location` times (the `q` loop), where
`samples_of_location = groupSizeOfNthGroup(rate, pps, point_number)`;
`point_number` increments once per sub-step. -/
def emitPLoop (params : WavParams) (lx ly lz dx dy dz l r g b k : Int) :
    List Nat → Int → Option (List Int × Int)
  | [], pn => some ([], pn)
  | p0 :: ps, pn => do
      let p : Int := (p0 : Int) + 1
      let chans ← params.signals.mapM (fun s =>
        sampleFor s (interpCoord lx dx p k) (interpCoord ly dy p k)
          (interpCoord lz dz p k) l r g b)
      let samples_of_location := groupSizeOfNthGroup params.rate params.pps pn
      let (out, pn') ← emitPLoop params lx ly lz dx dy dz l r g b k ps (pn + 1)
      some ((List.replicate samples_of_location.toNat chans).flatten ++ out, pn')

/-- The `for (int i = 0; i < location_count; i++)` loop of `run`: each
location is allocated `groupSizeOfNthGroup(point_count, location_count,
i)` sub-points; a location allocated exactly zero is skipped
(`continue`) without touching the last-position state. Otherwise the
(possibly inverted) coordinates, 16-bit wrapped deltas and resolved
color/laser values are computed and the sub-step loop runs; afterwards
the last position becomes the location's own coordinates. -/
def emitLocations (params : WavParams) (point_count location_count : Int) :
    List (Nat × Point) → EmitState → Option (List Int × EmitState)
  | [], st => some ([], st)
  | (i, pt) :: rest, st =>
      let k := groupSizeOfNthGroup point_count location_count (i : Int)
      if k = 0 then emitLocations params point_count location_count rest st
      else
        let x := if params.invert.contains 'x' then wrap16 (-pt.x) else pt.x
        let y := if params.invert.contains 'y' then wrap16 (-pt.y) else pt.y
        let z := if params.invert.contains 'z' then wrap16 (-pt.z) else pt.z
        let dx := wrap16 (x - st.last_x)
        let dy := wrap16 (y - st.last_y)
        let dz := wrap16 (z - st.last_z)
        let l : Int := if pt.r = 0 ∧ pt.g = 0 ∧ pt.b = 0 then 0 else int16Max
        let r := wrap16 ((pt.r : Int) * colorChannelScale)
        let g := wrap16 ((pt.g : Int) * colorChannelScale)
        let b := wrap16 ((pt.b : Int) * colorChannelScale)
        do
          let (out, pn') ← emitPLoop params st.last_x st.last_y st.last_z
            dx dy dz l r g b k (List.range k.toNat) st.point_number
          let st' : EmitState :=
            { last_x := x, last_y := y, last_z := z, point_number := pn' }
          let (out2, st'') ←
            emitLocations params point_count location_count rest st'
          some (out ++ out2, st'')

/-- The `while ((frame = input.nextFrame()))` loop of `run`: per frame,
`frame_in_second = frame_number % fps`; `point_number` resets at the
start of each wall-clock second; the frame's point budget is
`groupSizeOfNthGroup(pps, fps, frame_in_second)`. Returns the emitted
samples, the accumulated `total_bytes` (each frame contributes
`sample_number * sizeof(int16_t)`), and the final state. -/
def runFrames (params : WavParams) :
    List Frame → Nat → EmitState → Option (List Int × Nat × EmitState)
  | [], _, st => some ([], 0, st)
  | f :: fs, frame_number, st =>
      let frame_in_second : Int := (frame_number : Int).tmod params.fps
      let st0 := if frame_in_second = 0 then { st with point_number := 0 } else st
      let point_count := groupSizeOfNthGroup params.pps params.fps frame_in_second
      do
        let (out, st1) ← emitLocations params point_count
          (f.points.length : Int) f.points.enum st0
        let bytes := out.length * 2
        let (out2, total, st2) ← runFrames params fs (frame_number + 1) st1
        some (out ++ out2, bytes + total, st2)

/-- The produced container header (`WavHeader` in `ilda_wav.cpp`);
fixed tags are omitted, the numeric fields are kept. -/
structure WavHeader where
  chunk_size : Nat
  channels : Nat
  rate : Nat
  bytes_per_second : Nat
  bytes_per_block : Nat
  bits_per_sample : Nat
  data_size : Nat
deriving Repr, DecidableEq

/-- `WavHeader::update`: store the data size, the chunk size
(`data_size + 36`) and the derived rate fields, with the unsigned
field widths of the struct. -/
def WavHeader.update (h : WavHeader) (data_size : Nat) : WavHeader :=
  let bpb := h.bits_per_sample * h.channels / 8 % 2 ^ 16
  { h with
    data_size := data_size % 2 ^ 32
    chunk_size := (data_size + 36) % 2 ^ 32
    bytes_per_block := bpb
    bytes_per_second := h.rate * bpb % 2 ^ 32 }

/-- `ILDAWavOutput::run`: build the header from the channel count and
rate, stream every frame, and rewrite the header with the accumulated
`total_bytes`. The result is the final header and the emitted samples
(`none` models the `InvalidSignal` throw). -/
def ILDAWavOutput.run (params : WavParams) (frames : List Frame) :
    Option (WavHeader × List Int) :=
  let header0 : WavHeader :=
    WavHeader.update
      { chunk_size := 0
        channels := params.signals.length % 2 ^ 16
        rate := (params.rate % 2 ^ 32).toNat
        bytes_per_second := 0
        bytes_per_block := 0
        bits_per_sample := 16
        data_size := 0 } 0
  match runFrames params frames 0 ⟨0, 0, 0, 0⟩ with
  | none => none
  | some (data, total_bytes, _) => some (header0.update total_bytes, data)

/-- Just the sample stream of a `run`. -/
def runData (params : WavParams) (frames : List Frame) : Option (List Int) :=
  (ILDAWavOutput.run params frames).map (fun p => p.2)

/- ### Arithmetic facts about the fair distribution -/

lemma emod_add_small_step (a r G : Int) (hG : 0 < G) (hr : 0 ≤ r) (hrG : r < G) :
    ((a + r) % G < a % G ↔ G ≤ a % G + r) ∧
    (a + r) / G - a / G = (if (a + r) % G < a % G then 1 else 0) := by
  have hm0 : 0 ≤ a % G := Int.emod_nonneg a (by omega)
  have hm1 : a % G < G := Int.emod_lt_of_pos a hG
  have hsplit := Int.ediv_add_emod a G
  by_cases h : a % G + r < G
  · have huniq : (a + r) / G = a / G ∧ (a + r) % G = a % G + r :=
      (Int.ediv_emod_unique hG).mpr ⟨by linarith, by omega, h⟩
    rw [huniq.1, huniq.2]
    constructor
    · constructor
      · intro hlt; omega
      · intro hge; omega
    · rw [if_neg (by omega)]; omega
  · have huniq : (a + r) / G = a / G + 1 ∧ (a + r) % G = a % G + r - G :=
      (Int.ediv_emod_unique hG).mpr ⟨by linarith, by omega, by omega⟩
    rw [huniq.1, huniq.2]
    constructor
    · constructor
      · intro hlt; omega
      · intro hge; omega
    · rw [if_pos (by omega)]; omega

lemma tdiv_nonneg_eq_ediv (a b : Int) (ha : 0 ≤ a) (hb : 0 ≤ b) : a.tdiv b = a / b :=
  Int.tdiv_eq_ediv ha hb

lemma tmod_nonneg_eq_emod (a b : Int) (ha : 0 ≤ a) (hb : 0 ≤ b) : a.tmod b = a % b :=
  Int.tmod_eq_emod ha hb

/-- Closed form: the fair distribution is the step of the floor of
`i * (T mod G) / G`. -/
lemma groupSizeOfNthGroup_eq_floor_step (T G i : Int) (hT : 0 ≤ T) (hG : 0 < G)
    (hi : 0 ≤ i) :
    groupSizeOfNthGroup T G i =
      T / G + (((i + 1) * (T % G)) / G - (i * (T % G)) / G) := by
  have hr0 : 0 ≤ T % G := Int.emod_nonneg T (by omega)
  have hr1 : T % G < G := Int.emod_lt_of_pos T hG
  simp only [groupSizeOfNthGroup]
  rw [tdiv_nonneg_eq_ediv T G hT (by omega),
      tmod_nonneg_eq_emod T G hT (by omega),
      tmod_nonneg_eq_emod (i * (T % G)) G (mul_nonneg hi hr0) (by omega),
      tmod_nonneg_eq_emod ((i + 1) * (T % G)) G (mul_nonneg (by omega) hr0) (by omega)]
  have key := emod_add_small_step (i * (T % G)) (T % G) G hG hr0 hr1
  have harg : i * (T % G) + T % G = (i + 1) * (T % G) := by ring
  rw [harg] at key
  by_cases h : ((i + 1) * (T % G)) % G < (i * (T % G)) % G
  · rw [if_pos h]
    have := key.2
    rw [if_pos h] at this
    omega
  · rw [if_neg h]
    have := key.2
    rw [if_neg h] at this
    omega

lemma groupSizeOfNthGroup_sum (T G : Int) (hT : 0 ≤ T) (hG : 1 ≤ G) :
    (∑ n ∈ Finset.range G.toNat, groupSizeOfNthGroup T G (n : Int)) = T := by
  have hG0 : 0 < G := by omega
  have hrw : ∀ n ∈ Finset.range G.toNat,
      groupSizeOfNthGroup T G (n : Int) =
        T / G + ((((n : Int) + 1) * (T % G)) / G - ((n : Int) * (T % G)) / G) := by
    intro n _
    exact groupSizeOfNthGroup_eq_floor_step T G n hT hG0 (by positivity)
  rw [Finset.sum_congr rfl hrw, Finset.sum_add_distrib, Finset.sum_const]
  have htel :
      (∑ n ∈ Finset.range G.toNat,
        ((((n : Int) + 1) * (T % G)) / G - ((n : Int) * (T % G)) / G)) = T % G := by
    have := Finset.sum_range_sub (fun n : ℕ => ((n : Int) * (T % G)) / G) G.toNat
    simp only [Nat.cast_add, Nat.cast_one] at this
    rw [this]
    have hcast : ((G.toNat : ℕ) : Int) = G := Int.toNat_of_nonneg (by omega)
    rw [hcast]
    simp [Int.mul_ediv_cancel_left _ (show G ≠ 0 by omega)]
  rw [htel, Finset.card_range]
  have hcard : (G.toNat • (T / G) : Int) = G * (T / G) := by
    rw [nsmul_eq_mul]
    rw [Int.toNat_of_nonneg (by omega : (0:Int) ≤ G)]
  rw [hcard]
  have := Int.ediv_add_emod T G
  omega

lemma groupSizeOfNthGroup_spread (T G i j : Int) (hT : 0 ≤ T) (hG : 1 ≤ G)
    (hi : 0 ≤ i) (hj : 0 ≤ j) :
    groupSizeOfNthGroup T G i - groupSizeOfNthGroup T G j ≤ 1 := by
  unfold groupSizeOfNthGroup
  by_cases h1 : (i * T.tmod G).tmod G > ((i + 1) * T.tmod G).tmod G <;>
    by_cases h2 : (j * T.tmod G).tmod G > ((j + 1) * T.tmod G).tmod G <;>
    simp [h1, h2]

/-- C1: the fair remainder distribution `groupSizeOfNthGroup(T, G, i)`
equals `T div G` plus one extra unit exactly when
`(i * (T mod G)) mod G > ((i+1) * (T mod G)) mod G`; over all
`i in [0, G)` the sizes sum exactly to `T`, and any two sizes differ by
at most 1. -/
theorem groupSize_fair_distribution_C1 (T G : Int) (hT : 0 ≤ T) (hG : 1 ≤ G) :
    (∀ i : Int, 0 ≤ i →
      groupSizeOfNthGroup T G i =
        (if (i * (T % G)) % G > ((i + 1) * (T % G)) % G then T / G + 1 else T / G)) ∧
    (∑ n ∈ Finset.range G.toNat, groupSizeOfNthGroup T G (n : Int)) = T ∧
    (∀ i j : Int, 0 ≤ i → 0 ≤ j → i < G → j < G →
      groupSizeOfNthGroup T G i - groupSizeOfNthGroup T G j ≤ 1) := by
  have hG0 : 0 < G := by omega
  refine ⟨?_, groupSizeOfNthGroup_sum T G hT hG, ?_⟩
  · intro i hi
    have hr0 : 0 ≤ T % G := Int.emod_nonneg T (by omega)
    simp only [groupSizeOfNthGroup]
    rw [tdiv_nonneg_eq_ediv T G hT (by omega),
        tmod_nonneg_eq_emod T G hT (by omega),
        tmod_nonneg_eq_emod (i * (T % G)) G (mul_nonneg hi hr0)
          (by omega),
        tmod_nonneg_eq_emod ((i + 1) * (T % G)) G (mul_nonneg (by omega) hr0) (by omega)]
  · intro i j hi hj _ _
    exact groupSizeOfNthGroup_spread T G i j hT hG hi hj

/-- Witness for C1 at `T = 10`, `G = 3`: the sizes sum to 10. -/
theorem groupSize_fair_distribution_C1_witness :
    (0 : Int) ≤ 10 ∧ (1 : Int) ≤ 3 ∧
    (∑ n ∈ Finset.range (3 : Int).toNat, groupSizeOfNthGroup 10 3 (n : Int)) =
      (10 : Int) :=
  ⟨by decide, by decide,
    (groupSize_fair_distribution_C1 10 3 (by decide) (by decide)).2.1⟩

/- ### Support lemmas for the decoder -/

lemma exceptBind_ok {α β : Type} (x : α) (f : α → Except ILDAError β) :
    (Except.ok x >>= f) = f x := rfl

lemma takeBytes_append (A B : List Nat) {n : Nat} (h : A.length = n) :
    takeBytes n (A ++ B) = some (A, B) := by
  unfold takeBytes
  rw [if_neg (by simp [← h]), List.take_left' h, List.drop_left' h]

lemma readOrEof_append (A B : List Nat) {n : Nat} (h : A.length = n) :
    readOrEof n (A ++ B) = .ok (A, B) := by
  unfold readOrEof
  rw [takeBytes_append A B h]

lemma mkHeader_length (f n pid : Nat) : (mkHeader f n pid).length = 32 := by
  simp [mkHeader, ildaMagic]

lemma magicStringOf_mkHeader (f n pid : Nat) :
    magicStringOf (mkHeader f n pid) = ildaMagic := rfl

lemma parseHeader_mkHeader (f n pid : Nat) :
    parseHeader (mkHeader f n pid) = ⟨f, n, pid⟩ := by
  show ParsedHeader.mk f (be16 (n / 256) (n % 256)) pid = ⟨f, n, pid⟩
  simp [be16]
  omega

/-- A block header followed by anything parses back to its fields. -/
lemma readHeader_mkHeader (st : ILDAIStream) (f n pid : Nat) (rest : List Nat)
    (hin : st.input = mkHeader f n pid ++ rest) :
    st.readHeader = .ok (⟨f, n, pid⟩, { st with input := rest }) := by
  unfold ILDAIStream.readHeader
  rw [hin, readOrEof_append _ _ (mkHeader_length f n pid), exceptBind_ok]
  simp only []
  rw [if_pos (magicStringOf_mkHeader f n pid), parseHeader_mkHeader]

lemma readPaletteRecords_encode (L : List ILDAColor) (rest : List Nat) :
    readPaletteRecords L.length (colorBytes L ++ rest) = .ok (L, rest) := by
  induction L generalizing rest with
  | nil => rfl
  | cons c L ih =>
      show readPaletteRecords (L.length + 1)
        (([c.r, c.g, c.b] ++ colorBytes L) ++ rest) = _
      rw [List.append_assoc]
      unfold readPaletteRecords
      rw [readOrEof_append [c.r, c.g, c.b] (colorBytes L ++ rest)
        (show ([c.r, c.g, c.b] : List Nat).length = 3 from rfl), exceptBind_ok]
      simp only []
      rw [ih rest, exceptBind_ok]
      rfl

/-- Processing a well-formed palette-load block: the palette for the
block's projector id is replaced by exactly the block's entries, the
`current_frame` buffer is returned untouched, and the input advances
past the block. -/
lemma nextFrame_paletteBlock (st : ILDAIStream) (pid : Nat) (L : List ILDAColor)
    (rest : List Nat) (hne : 1 ≤ L.length)
    (hin : st.input = mkHeader 2 L.length pid ++ colorBytes L ++ rest) :
    st.nextFrame = .ok (some st.current_frame,
      { st with
        input := rest
        palettes := fun id => if id = pid then some L else st.palettes id }) := by
  unfold ILDAIStream.nextFrame
  rw [readHeader_mkHeader st 2 L.length pid (colorBytes L ++ rest) hin,
      exceptBind_ok]
  simp only []
  rw [if_neg (show ¬(L.length = 0) by omega), if_neg (by simp), if_pos trivial]
  rw [readPaletteRecords_encode L rest, exceptBind_ok]

/-- C4 counterexample: the claimed concrete values `(4, 3, 3)` are wrong;
group 0 gets 3 points, not 4. -/
theorem groupSize_10_3_counterexample_C4 :
    ¬(groupSizeOfNthGroup 10 3 0 = 4 ∧ groupSizeOfNthGroup 10 3 1 = 3 ∧
      groupSizeOfNthGroup 10 3 2 = 3) := by decide

/-- C4 amended: the fair remainder distribution for total 10 over 3
groups yields sizes `(3, 3, 4)` (the extra unit goes to the last group),
still summing to 10. -/
theorem groupSize_10_3_values_C4 :
    groupSizeOfNthGroup 10 3 0 = 3 ∧ groupSizeOfNthGroup 10 3 1 = 3 ∧
    groupSizeOfNthGroup 10 3 2 = 4 ∧
    groupSizeOfNthGroup 10 3 0 + groupSizeOfNthGroup 10 3 1 +
      groupSizeOfNthGroup 10 3 2 = 10 := by decide

/-- C2 (code bug): `nextFrame` on format code 1 (2D indexed) reads
8-byte `ILDA3dCoordinatesIndexed` records, not the 6-byte 2D layout,
and takes `z` from the record instead of forcing `z = 0`: a complete
format-1 block holding one 6-byte 2D record fails with `UnexpectedEof`,
and an 8-byte record whose z bytes are `(1, 1)` decodes with `z = 257`. -/
theorem format1_consumes_3d_records_C2 :
    (initialStream (mkHeader 1 1 0 ++ [0, 0, 0, 0, 0, 1])).nextFrame =
      .error .unexpectedEof ∧
    frameOf ((initialStream (mkHeader 1 1 0 ++ [0, 0, 0, 0, 1, 1, 0, 0])).nextFrame) =
      some ⟨0, [⟨0, 0, 257, 255, 0, 0⟩]⟩ := ⟨rfl, rfl⟩

/-- C3 counterexample: a palette-load block (format 2, nonzero record
count) does yield a `Frame` from `nextFrame` (the stale `current_frame`
buffer), while replacing the palette for source id 7; the claim says
this call yields no `Frame`. -/
theorem paletteLoad_result_C3_counterexample :
    yieldsFrame ((initialStream (mkHeader 2 2 7 ++ [255, 0, 0, 0, 255, 0])).nextFrame) = true ∧
    paletteAfterFirst (mkHeader 2 2 7 ++ [255, 0, 0, 0, 255, 0]) 7 =
      some [⟨255, 0, 0⟩, ⟨0, 255, 0⟩] := ⟨rfl, rfl⟩

/-- C3 amended: consuming a palette-load block with a nonzero record
count replaces the palette for the header's source id with the block's
entries, but the call still returns the decoder's `current_frame`
buffer unchanged (the previously decoded frame, or the empty initial
frame) rather than yielding no frame; the next actual frame is obtained
by calling `nextFrame` again. -/
theorem paletteLoad_replaces_and_returns_buffer_C3 (st : ILDAIStream)
    (pid : Nat) (L : List ILDAColor) (rest : List Nat) (hne : 1 ≤ L.length)
    (hin : st.input = mkHeader 2 L.length pid ++ colorBytes L ++ rest) :
    st.nextFrame = .ok (some st.current_frame,
      { st with
        input := rest
        palettes := fun id => if id = pid then some L else st.palettes id }) :=
  nextFrame_paletteBlock st pid L rest hne hin

/-- Witness for C3's amended theorem at the concrete palette block for
source 7 with entries (255,0,0), (0,255,0). -/
theorem paletteLoad_replaces_and_returns_buffer_C3_witness :
    1 ≤ ([⟨255, 0, 0⟩, ⟨0, 255, 0⟩] : List ILDAColor).length ∧
    (initialStream (mkHeader 2 2 7 ++ [255, 0, 0, 0, 255, 0])).nextFrame =
      .ok (some (initialStream (mkHeader 2 2 7 ++ [255, 0, 0, 0, 255, 0])).current_frame,
        { initialStream (mkHeader 2 2 7 ++ [255, 0, 0, 0, 255, 0]) with
          input := []
          palettes := fun id =>
            if id = 7 then some [⟨255, 0, 0⟩, ⟨0, 255, 0⟩]
            else (initialStream (mkHeader 2 2 7 ++ [255, 0, 0, 0, 255, 0])).palettes id }) :=
  ⟨by decide,
    paletteLoad_replaces_and_returns_buffer_C3
      (initialStream (mkHeader 2 2 7 ++ [255, 0, 0, 0, 255, 0])) 7
      [⟨255, 0, 0⟩, ⟨0, 255, 0⟩] [] (by decide) rfl⟩

/-- C7: a newly loaded palette fully replaces any previous palette for
that source id; an indexed record with an in-range index and clear
blanked bit resolves to the chosen palette's entry; and the concrete
scenario: palette block (source 7, entries (255,0,0), (0,255,0))
followed by an indexed-3D block (source 7, one record, color index 1,
not blanked) decodes to one point colored (0,255,0). -/
theorem palette_replacement_resolution_C7 :
    (∀ (st : ILDAIStream) (pid : Nat) (L : List ILDAColor) (rest : List Nat),
      1 ≤ L.length →
      st.input = mkHeader 2 L.length pid ++ colorBytes L ++ rest →
      ∃ st', st.nextFrame = .ok (some st.current_frame, st') ∧
        st'.palettes pid = some L ∧ st'.input = rest) ∧
    (∀ (palette : List ILDAColor) (rec : List Nat),
      rec.getD 7 0 < palette.length →
      statusBlanked (rec.getD 6 0) = false →
      (point3dIndexedOf palette rec).r = (palette.getD (rec.getD 7 0) ⟨0, 0, 0⟩).r ∧
      (point3dIndexedOf palette rec).g = (palette.getD (rec.getD 7 0) ⟨0, 0, 0⟩).g ∧
      (point3dIndexedOf palette rec).b = (palette.getD (rec.getD 7 0) ⟨0, 0, 0⟩).b) ∧
    (decodeFirstTwo (mkHeader 2 2 7 ++ [255, 0, 0, 0, 255, 0] ++
        (mkHeader 0 1 7 ++ [0, 0, 0, 0, 0, 0, 0, 1]))).2 =
      some ⟨7, [⟨0, 0, 0, 0, 255, 0⟩]⟩ := by
  refine ⟨?_, ?_, rfl⟩
  · intro st pid L rest hne hin
    refine ⟨_, nextFrame_paletteBlock st pid L rest hne hin, ?_, rfl⟩
    simp
  · intro palette rec hidx hblank
    rw [point3dIndexedOf, if_neg]
    · exact ⟨rfl, rfl, rfl⟩
    · rw [hblank]
      simp only [Bool.false_eq_true, or_false]
      omega

/-- Witness for C7 at the concrete palette and record of the scenario. -/
theorem palette_replacement_resolution_C7_witness :
    paletteAfterFirst (mkHeader 2 2 7 ++ colorBytes [⟨255, 0, 0⟩, ⟨0, 255, 0⟩]) 7 =
      some [⟨255, 0, 0⟩, ⟨0, 255, 0⟩] ∧
    (point3dIndexedOf [⟨255, 0, 0⟩, ⟨0, 255, 0⟩] [0, 0, 0, 0, 0, 0, 0, 1]).g = 255 := by
  constructor
  · obtain ⟨st', h1, h2, h3⟩ :=
      palette_replacement_resolution_C7.1
        (initialStream (mkHeader 2 2 7 ++ colorBytes [⟨255, 0, 0⟩, ⟨0, 255, 0⟩])) 7
        [⟨255, 0, 0⟩, ⟨0, 255, 0⟩] [] (by decide) (by rfl)
    rw [paletteAfterFirst, h1]
    exact h2
  · have h := (palette_replacement_resolution_C7.2.1
      [⟨255, 0, 0⟩, ⟨0, 255, 0⟩] [0, 0, 0, 0, 0, 0, 0, 1] (by decide) (by decide)).2.1
    rw [h]
    rfl

/-- C8 (code bug): the magic check compares a NUL-terminated string
built from the 4-byte magic field, scanning past it into the reserved
bytes. A header whose first 4 bytes are `"ILDA"` but whose first
reserved byte is 1 is rejected with the corrupt-file error, contrary to
the claim; a header that is `"ILDA"` with zeroed reserved bytes passes
(even with an unsupported format code), and a wrong magic is rejected. -/
theorem header_magic_check_C8 :
    headerCorrupt ([73, 76, 68, 65] ++ [1, 0, 0] ++ List.replicate 25 0) = true ∧
    ([73, 76, 68, 65] ++ [1, 0, 0] ++ List.replicate 25 0).take 4 = ildaMagic ∧
    headerCorrupt (mkHeader 6 1 0) = false ∧
    headerCorrupt ([0, 0, 0, 0] ++ List.replicate 28 0) = true :=
  ⟨rfl, rfl, rfl, rfl⟩

/- ### Support lemmas for the sample scheduler -/

lemma wrap16_id (n : Int) (h1 : -(2 ^ 15) ≤ n) (h2 : n < 2 ^ 15) : wrap16 n = n := by
  unfold wrap16
  rw [Int.emod_eq_of_lt (by omega) (by omega)]
  omega

lemma tdiv_scale_nonneg (d p k : Int) (hd : 0 ≤ d) (hp : 0 < p) (hpk : p ≤ k) :
    0 ≤ (d * p).tdiv k ∧ (d * p).tdiv k ≤ d := by
  have hk : 0 < k := lt_of_lt_of_le hp hpk
  have hdp : 0 ≤ d * p := mul_nonneg hd (by omega)
  rw [tdiv_nonneg_eq_ediv _ _ hdp (by omega)]
  refine ⟨Int.ediv_nonneg hdp (by omega), ?_⟩
  have h1 : d * p ≤ d * k := mul_le_mul_of_nonneg_left hpk hd
  have h2 : d * p / k ≤ d * k / k := Int.ediv_le_ediv hk h1
  rw [Int.mul_ediv_cancel d (by omega)] at h2
  exact h2

lemma tdiv_scale_nonpos (d p k : Int) (hd : d ≤ 0) (hp : 0 < p) (hpk : p ≤ k) :
    d ≤ (d * p).tdiv k ∧ (d * p).tdiv k ≤ 0 := by
  have h := tdiv_scale_nonneg (-d) p k (by omega) hp hpk
  rw [neg_mul, Int.neg_tdiv] at h
  omega

/-- When the true difference between the current and the last position
fits in `int16_t`, the interpolated coordinate at sub-step `p` of `k`
equals the claimed `last + (current - last) * p / k` with truncated
division, with no 16-bit wrap anywhere. -/
lemma interpCoord_eq_of_small (lastv cur p k : Int)
    (hl1 : -(2 ^ 15) ≤ lastv) (hl2 : lastv < 2 ^ 15)
    (hc1 : -(2 ^ 15) ≤ cur) (hc2 : cur < 2 ^ 15)
    (hd1 : -(2 ^ 15) ≤ cur - lastv) (hd2 : cur - lastv < 2 ^ 15)
    (hp : 0 < p) (hpk : p ≤ k) :
    interpCoord lastv (wrap16 (cur - lastv)) p k =
      lastv + ((cur - lastv) * p).tdiv k := by
  rw [interpCoord, wrap16_id _ hd1 hd2]
  rcases le_or_lt 0 (cur - lastv) with hd | hd
  · have h := tdiv_scale_nonneg (cur - lastv) p k hd hp hpk
    exact wrap16_id _ (by omega) (by omega)
  · have h := tdiv_scale_nonpos (cur - lastv) p k (by omega) hp hpk
    exact wrap16_id _ (by omega) (by omega)

lemma runFrames_total_eq (params : WavParams) (fs : List Frame) :
    ∀ (n : Nat) (st : EmitState) (data : List Int) (total : Nat) (st' : EmitState),
    runFrames params fs n st = some (data, total, st') →
    total = 2 * data.length := by
  induction fs with
  | nil =>
      intro n st data total st' h
      simp only [runFrames, Option.some.injEq, Prod.mk.injEq] at h
      obtain ⟨h1, h2, _⟩ := h
      subst h1 h2
      rfl
  | cons f fs ih =>
      intro n st data total st' h
      simp only [runFrames] at h
      cases hE : emitLocations params
          (groupSizeOfNthGroup params.pps params.fps ((n : Int).tmod params.fps))
          (f.points.length : Int) f.points.enum
          (if ((n : Int).tmod params.fps) = 0 then { st with point_number := 0 } else st) with
      | none => rw [hE] at h; exact Option.noConfusion h
      | some pr =>
          obtain ⟨out, st1⟩ := pr
          rw [hE] at h
          simp only [Option.bind_eq_bind, Option.some_bind] at h
          cases hR : runFrames params fs (n + 1) st1 with
          | none => rw [hR] at h; exact Option.noConfusion h
          | some pr2 =>
              obtain ⟨out2, total2, st2⟩ := pr2
              rw [hR] at h
              simp only [Option.bind_eq_bind, Option.some_bind, Option.some.injEq,
                Prod.mk.injEq] at h
              obtain ⟨hdata, htotal, _⟩ := h
              have := ih (n + 1) st1 out2 total2 st2 hR
              subst hdata htotal
              simp [List.length_append]
              omega

/-- C9: for every successfully encoded frame sequence (within the
32-bit field range), the data length declared in the final rewritten
header equals the exact number of sample bytes written after the
header, and the declared chunk size is that length plus 36. -/
theorem header_size_roundtrip_C9 (params : WavParams) (frames : List Frame)
    (hdr : WavHeader) (data : List Int)
    (hrun : ILDAWavOutput.run params frames = some (hdr, data))
    (hfit : 2 * data.length + 36 < 2 ^ 32) :
    hdr.data_size = 2 * data.length ∧
    hdr.chunk_size = hdr.data_size + 36 := by
  unfold ILDAWavOutput.run at hrun
  cases hR : runFrames params frames 0 ⟨0, 0, 0, 0⟩ with
  | none => rw [hR] at hrun; exact Option.noConfusion hrun
  | some pr =>
      obtain ⟨d, total, stf⟩ := pr
      rw [hR] at hrun
      simp only [Option.some.injEq, Prod.mk.injEq] at hrun
      obtain ⟨hhdr, hdata⟩ := hrun
      subst hdata
      have htot := runFrames_total_eq params frames 0 ⟨0, 0, 0, 0⟩ d total stf hR
      subst htot
      rw [← hhdr]
      unfold WavHeader.update
      constructor
      · show (2 * d.length) % 2 ^ 32 = 2 * d.length
        omega
      · show (2 * d.length + 36) % 2 ^ 32 = (2 * d.length) % 2 ^ 32 + 36
        omega

/-- Witness for C9 on a one-frame run (2 channels, rate 2): four
samples, 8 data bytes, chunk size 44. -/
theorem header_size_roundtrip_C9_witness :
    ({ chunk_size := 44, channels := 2, rate := 2, bytes_per_second := 8,
       bytes_per_block := 4, bits_per_sample := 16, data_size := 8 } : WavHeader).data_size =
      2 * ([5, 6, 5, 6] : List Int).length ∧
    ({ chunk_size := 44, channels := 2, rate := 2, bytes_per_second := 8,
       bytes_per_block := 4, bits_per_sample := 16, data_size := 8 } : WavHeader).chunk_size =
      ({ chunk_size := 44, channels := 2, rate := 2, bytes_per_second := 8,
         bytes_per_block := 4, bits_per_sample := 16, data_size := 8 } : WavHeader).data_size + 36 :=
  header_size_roundtrip_C9 ⟨1, ['x', 'y'], [], 2, 1⟩ [⟨0, [⟨5, 6, 0, 255, 0, 0⟩]⟩]
    _ _ rfl (by decide)

/-- C5 counterexample: the emitted red-channel sample for an input
channel value of 255 is 32640, not `255 * 32767 / 255 = 32767`: the
code multiplies by the integer quotient `32767 / 255 = 128`. -/
theorem color_scale_C5_counterexample :
    runData ⟨1, ['r'], [], 1, 1⟩ [⟨0, [⟨0, 0, 0, 255, 0, 0⟩]⟩] = some [32640] ∧
    (255 : Int) * 32767 / 255 = 32767 ∧
    ¬((32640 : Int) = 32767) := ⟨rfl, by decide, by decide⟩

/-- C5 amended: each color channel is scaled from 8 bits by the
constant factor `32767 / 255` evaluated first in integer arithmetic,
i.e. 128, so an emitted channel sample is `channel_value * 128`; 255
maps to 32640. The run with channels (255, 128, 1) emits exactly the
samples (32640, 16384, 128). -/
theorem color_scale_C5 :
    (∀ c : Nat, c ≤ 255 → wrap16 ((c : Int) * colorChannelScale) = (c : Int) * 128) ∧
    colorChannelScale = 128 ∧
    runData ⟨1, ['r', 'g', 'b'], [], 1, 1⟩ [⟨0, [⟨0, 0, 0, 255, 128, 1⟩]⟩] =
      some [32640, 16384, 128] := by
  refine ⟨?_, rfl, rfl⟩
  intro c hc
  rw [show colorChannelScale = 128 from rfl]
  have hc' : (c : Int) ≤ 255 := by exact_mod_cast hc
  exact wrap16_id _ (by omega) (by omega)

/-- Witness for C5 at channel value 255. -/
theorem color_scale_C5_witness :
    (255 : Nat) ≤ 255 ∧
    wrap16 (((255 : Nat) : Int) * colorChannelScale) = ((255 : Nat) : Int) * 128 :=
  ⟨by decide, color_scale_C5.1 255 (by decide)⟩

lemma mapM_cons_ne_nil {α β : Type} (f : α → Option β) (a : α) (as : List α)
    (res : List β) (h : List.mapM f (a :: as) = some res) : res ≠ [] := by
  rw [List.mapM_cons] at h
  simp only [Option.bind_eq_bind, Option.bind_eq_some, Option.pure_def,
    Option.some.injEq] at h
  obtain ⟨v, _, vs, _, heq⟩ := h
  rw [← heq]
  exact List.cons_ne_nil v vs

lemma emitPLoop_cons_ne_nil (params : WavParams)
    (lx ly lz dx dy dz l r g b k : Int) (p0 : Nat) (ps : List Nat) (pn : Int)
    (out : List Int) (pn' : Int)
    (hs : 0 < groupSizeOfNthGroup params.rate params.pps pn)
    (hsig : params.signals ≠ [])
    (h : emitPLoop params lx ly lz dx dy dz l r g b k (p0 :: ps) pn =
      some (out, pn')) :
    out ≠ [] := by
  simp only [emitPLoop, Option.bind_eq_bind, Option.bind_eq_some,
    Option.some.injEq, Prod.mk.injEq] at h
  obtain ⟨chans, hch, ⟨out1, pn1⟩, hrec, heq, _⟩ := h
  rw [← heq]
  obtain ⟨s0, ss⟩ := List.exists_cons_of_ne_nil hsig
  obtain ⟨ss', hss⟩ := ss
  have hchne : chans ≠ [] := by
    apply mapM_cons_ne_nil _ s0 ss' chans
    rw [← hss]
    exact hch
  obtain ⟨m, hm⟩ : ∃ m, (groupSizeOfNthGroup params.rate params.pps pn).toNat
      = m + 1 := ⟨(groupSizeOfNthGroup params.rate params.pps pn).toNat - 1, by omega⟩
  rw [hm]
  simp only [List.replicate, List.flatten_cons]
  intro hcontra
  rcases List.append_eq_nil.mp (List.append_eq_nil.mp hcontra).1 with ⟨h1, _⟩
  exact hchne h1

lemma emitLocations_skip_zero (params : WavParams) (pc lc : Int) (i : Nat)
    (pt : Point) (rest : List (Nat × Point)) (st : EmitState)
    (h : groupSizeOfNthGroup pc lc (i : Int) = 0) :
    emitLocations params pc lc ((i, pt) :: rest) st =
      emitLocations params pc lc rest st := by
  simp only [emitLocations]
  rw [if_pos h]

lemma emitLocations_cons_contributes (params : WavParams) (pc lc : Int) (i : Nat)
    (pt : Point) (rest : List (Nat × Point)) (st : EmitState) (out : List Int)
    (st' : EmitState)
    (hk : 0 < groupSizeOfNthGroup pc lc (i : Int))
    (hs : 0 < groupSizeOfNthGroup params.rate params.pps st.point_number)
    (hsig : params.signals ≠ [])
    (h : emitLocations params pc lc ((i, pt) :: rest) st = some (out, st')) :
    out ≠ [] := by
  simp only [emitLocations] at h
  rw [if_neg (by omega)] at h
  simp only [Option.bind_eq_bind, Option.bind_eq_some, Option.some.injEq,
    Prod.mk.injEq] at h
  obtain ⟨⟨out1, pn1⟩, hP, ⟨out2, st2⟩, hRest, heq, _⟩ := h
  rw [← heq]
  obtain ⟨m, hm⟩ : ∃ m, (groupSizeOfNthGroup pc lc (i : Int)).toNat = m + 1 :=
    ⟨(groupSizeOfNthGroup pc lc (i : Int)).toNat - 1, by omega⟩
  rw [hm, List.range_succ_eq_map] at hP
  have h1 := emitPLoop_cons_ne_nil params st.last_x st.last_y st.last_z _ _ _ _ _ _ _
    _ 0 _ st.point_number out1 pn1 hs hsig hP
  intro hcontra
  exact h1 (List.append_eq_nil.mp hcontra).1

/-- C10 counterexample: the scheduler does drop points. With fps = 1,
pps = 1, rate = 1 and a frame of two locations, location 0 is allocated
`groupSizeOfNthGroup(1, 2, 0) = 0` sub-points and is skipped: the run
emits exactly one sample, `[222]`, derived from the second point only,
although the frame contains two points. -/
theorem scheduler_never_drops_C10_counterexample :
    groupSizeOfNthGroup (groupSizeOfNthGroup 1 1 0) 2 0 = 0 ∧
    ([⟨111, 0, 0, 255, 255, 255⟩, ⟨222, 0, 0, 255, 255, 255⟩] : List Point).length = 2 ∧
    runData ⟨1, ['x'], [], 1, 1⟩
      [⟨0, [⟨111, 0, 0, 255, 255, 255⟩, ⟨222, 0, 0, 255, 255, 255⟩]⟩] =
      some [222] := ⟨by decide, rfl, rfl⟩

/-- C10 amended: the scheduler drops exactly the locations whose
sub-point allocation is zero: such a location is skipped entirely (no
samples emitted, no last-position update), which happens whenever a
frame holds more locations than its allocated point budget. A location
with a positive sub-point allocation whose first sub-point receives a
positive sample allocation contributes at least one emitted sample. -/
theorem scheduler_point_drop_C10 :
    (∀ (params : WavParams) (pc lc : Int) (i : Nat) (pt : Point)
        (rest : List (Nat × Point)) (st : EmitState),
      groupSizeOfNthGroup pc lc (i : Int) = 0 →
      emitLocations params pc lc ((i, pt) :: rest) st =
        emitLocations params pc lc rest st) ∧
    (∀ (params : WavParams) (pc lc : Int) (i : Nat) (pt : Point)
        (rest : List (Nat × Point)) (st : EmitState) (out : List Int)
        (st' : EmitState),
      0 < groupSizeOfNthGroup pc lc (i : Int) →
      0 < groupSizeOfNthGroup params.rate params.pps st.point_number →
      params.signals ≠ [] →
      emitLocations params pc lc ((i, pt) :: rest) st = some (out, st') →
      out ≠ []) :=
  ⟨fun params pc lc i pt rest st h =>
      emitLocations_skip_zero params pc lc i pt rest st h,
    fun params pc lc i pt rest st out st' hk hs hsig h =>
      emitLocations_cons_contributes params pc lc i pt rest st out st' hk hs hsig h⟩

/-- Witness for C10 on a one-location frame with all allocations 1:
the location contributes the sample list `[5] ≠ []`, and a zero
allocation at total 1 over 2 groups skips the location. -/
theorem scheduler_point_drop_C10_witness :
    emitLocations ⟨1, ['x'], [], 1, 1⟩ 1 2
        [(0, ⟨9, 0, 0, 255, 0, 0⟩), (1, ⟨5, 0, 0, 255, 0, 0⟩)] ⟨0, 0, 0, 0⟩ =
      emitLocations ⟨1, ['x'], [], 1, 1⟩ 1 2 [(1, ⟨5, 0, 0, 255, 0, 0⟩)] ⟨0, 0, 0, 0⟩ ∧
    ¬(([5] : List Int) = []) :=
  ⟨scheduler_point_drop_C10.1 ⟨1, ['x'], [], 1, 1⟩ 1 2 0 ⟨9, 0, 0, 255, 0, 0⟩
      [(1, ⟨5, 0, 0, 255, 0, 0⟩)] ⟨0, 0, 0, 0⟩ (by decide),
    scheduler_point_drop_C10.2 ⟨1, ['x'], [], 1, 1⟩ 1 1 0 ⟨5, 0, 0, 255, 0, 0⟩
      [] ⟨0, 0, 0, 0⟩ [5] ⟨5, 0, 0, 1⟩ (by decide) (by decide) (by decide) rfl⟩

/-- C6 counterexample: interpolation is computed on the 16-bit wrapped
delta `int16_t dx = x - last_x`, not on the true difference. From last
position (-30000,0,0) to a point at (30000,0,0) with k = 2, the claimed
formula `last + (current - last) * p / k` gives 0 at sub-step 1, but
the run emits -32768 there (second sample of the stream below). -/
theorem interpolation_C6_counterexample :
    runData ⟨1, ['x'], [], 3, 3⟩
      [⟨0, [⟨-30000, 0, 0, 255, 255, 255⟩, ⟨30000, 0, 0, 255, 255, 255⟩]⟩] =
      some [-30000, -32768, 30000] ∧
    (-30000 : Int) + (30000 - -30000) * 1 / 2 = 0 ∧
    ¬((-32768 : Int) = 0) := ⟨rfl, by decide, by decide⟩

/-- C6 amended: the position emitted at sub-step `p` (1..k) is
`wrap16(last + (d * p) / k)` with truncated division, where `d` is the
16-bit wrapped difference `current - last`; this equals the claimed
`last + (current - last) * p / k` whenever the true difference fits in
`int16_t`. Color and laser-on channels ignore the interpolated
coordinates (they take the current point's resolved value for every
sub-sample), and after a location's sub-samples the last-position
state becomes the point's own (possibly inverted) coordinates, which
is then carried forward. Concretely, from (0,0,0) to (100,0,0) with
k = 10 the run emits x = 10,20,...,100: sub-sample 5 yields 50 and
sub-sample 10 yields 100. -/
theorem interpolation_semantics_C6 :
    (∀ lastv cur p k : Int,
      -(2 ^ 15) ≤ lastv → lastv < 2 ^ 15 →
      -(2 ^ 15) ≤ cur → cur < 2 ^ 15 →
      -(2 ^ 15) ≤ cur - lastv → cur - lastv < 2 ^ 15 →
      0 < p → p ≤ k →
      interpCoord lastv (wrap16 (cur - lastv)) p k =
        lastv + ((cur - lastv) * p).tdiv k) ∧
    (∀ (s : Char) (ix iy iz ix' iy' iz' l r g b : Int),
      s = 'l' ∨ s = 'r' ∨ s = 'g' ∨ s = 'b' →
      sampleFor s ix iy iz l r g b = sampleFor s ix' iy' iz' l r g b) ∧
    (∀ (params : WavParams) (pc lc : Int) (i : Nat) (pt : Point)
        (st : EmitState) (out : List Int) (st' : EmitState),
      groupSizeOfNthGroup pc lc (i : Int) ≠ 0 →
      emitLocations params pc lc [(i, pt)] st = some (out, st') →
      st'.last_x = (if params.invert.contains 'x' then wrap16 (-pt.x) else pt.x) ∧
      st'.last_y = (if params.invert.contains 'y' then wrap16 (-pt.y) else pt.y) ∧
      st'.last_z = (if params.invert.contains 'z' then wrap16 (-pt.z) else pt.z)) ∧
    runData ⟨10, ['x'], [], 100, 100⟩ [⟨0, [⟨100, 0, 0, 255, 255, 255⟩]⟩] =
      some [10, 20, 30, 40, 50, 60, 70, 80, 90, 100] := by
  refine ⟨interpCoord_eq_of_small, ?_, ?_, rfl⟩
  · intro s ix iy iz ix' iy' iz' l r g b h
    rcases h with h | h | h | h <;> subst h <;> rfl
  · intro params pc lc i pt st out st' hk h
    simp only [emitLocations] at h
    rw [if_neg hk] at h
    simp only [Option.bind_eq_bind, Option.bind_eq_some, Option.some.injEq,
      Prod.mk.injEq] at h
    obtain ⟨⟨out1, pn1⟩, hP, ⟨out2, st2⟩, hRest, _, heq⟩ := h
    simp only [emitLocations, Option.some.injEq, Prod.mk.injEq] at hRest
    rw [← heq, ← hRest.2]
    exact ⟨rfl, rfl, rfl⟩

/-- Witness for C6 at the concrete scenario values: last 0, current
100, sub-step 5 of 10. -/
theorem interpolation_semantics_C6_witness :
    interpCoord 0 (wrap16 ((100 : Int) - 0)) 5 10 =
      0 + (((100 : Int) - 0) * 5).tdiv 10 :=
  interpolation_semantics_C6.1 0 100 5 10 (by decide) (by decide) (by decide)
    (by decide) (by decide) (by decide) (by decide) (by decide)
